import Mathlib

/-!
Verification of the rota-rust rotating forward proxy.

This file gives a shallow embedding, in Lean 4, of the pure control and
data logic of the proxy core (selection strategies, connection tracker,
transport front-ends, request handler status logic, authentication and
rate limiting middleware, and the per-request dispatch order of the
server), together with theorems settling the specification claims about
those parts.

Conventions of the embedding:
* Rust machine integers are modelled as `Nat`/`Int`; where an operation
  cannot overflow on the inputs a claim quantifies over, the wrap-around
  is not modelled and a comment says so.
* Stateful Rust structures (atomics, locks, DashMap) are modelled as
  explicit state passed through step functions.  Operations that the
  source serialises under a lock or an atomic read-modify-write are
  modelled as atomic steps.
* `std::time::Instant` is modelled as a `Nat` count of nanoseconds from
  an arbitrary epoch; `Instant::duration_since` saturates at zero, which
  `Nat` subtraction models exactly.
* Fallible operations return `Except RotaErrorKind _`.
-/

set_option autoImplicit false

namespace Rota

/-- Error kinds of `RotaError` (src/error.rs) that the proxy core paths can
produce.  Payload strings carry the formatted detail messages. -/
inductive RotaErrorKind where
  | noProxiesAvailable
  | proxyConnectionFailed (detail : String)
  | invalidProxyAddress (detail : String)
  | invalidRequest (detail : String)
  | unsupportedProtocol (protocolName : String)
  | timeout
  | authenticationFailed
  | rateLimitExceeded (clientIp : String)
  deriving DecidableEq, Repr

/-- The `Proxy` model entity (src/models/proxy.rs), restricted to the fields
the embedded operations consult: `id`, `address`, `protocol` and the optional
credentials.  The remaining bookkeeping fields (status, counters, timestamps,
failure reasons) are never read by the functions embedded here. -/
structure Proxy where
  id : Int
  address : String
  protocol : String
  username : Option String
  password : Option String
  deriving DecidableEq, Repr

instance : Inhabited Proxy := ⟨⟨0, "", "", none, none⟩⟩

/-- Rust `str::to_lowercase`, modelled character-wise with `Char.toLower`.
This agrees with Rust on every ASCII string (the only strings compared
against in the embedded code); multi-character Unicode lowercasings are not
modelled. -/
def lowerAscii (s : String) : String :=
  ⟨s.data.map Char.toLower⟩

/-! ## Round-robin selection strategy (src/proxy/rotation/round_robin.rs) -/

/-- State of `RoundRobinSelector`: the proxy list behind the `RwLock` and the
`AtomicUsize` cursor.  The cursor is a `Nat`; the `usize` wrap-around of
`fetch_add` is unreachable for the finitely many selects any claim here
quantifies over. -/
structure RoundRobinState where
  proxies : List Proxy
  index : Nat
  deriving Repr

/-- A fresh `RoundRobinSelector::new()`. -/
def RoundRobinState.new : RoundRobinState := ⟨[], 0⟩

/-- Model of `RoundRobinSelector::select` (round_robin.rs lines 39-51): on an empty
list fail with `NoProxiesAvailable`; otherwise atomically post-increment the
cursor and index the list modulo its length. -/
def RoundRobinState.select (s : RoundRobinState) :
    Except RotaErrorKind Proxy × RoundRobinState :=
  if s.proxies.isEmpty then
    (Except.error RotaErrorKind.noProxiesAvailable, s)
  else
    let len := s.proxies.length
    let idx := s.index % len
    let out : Except RotaErrorKind Proxy :=
      match s.proxies[idx]? with
      | some p => Except.ok p
      | none => Except.error RotaErrorKind.noProxiesAvailable
    (out, { s with index := s.index + 1 })

/-- Model of `RoundRobinSelector::refresh` (round_robin.rs lines 53-59): replace the
list and reset the cursor to 0. -/
def RoundRobinState.refresh (_s : RoundRobinState) (ps : List Proxy) :
    RoundRobinState :=
  { proxies := ps, index := 0 }

/-- Outputs of `k` successive `select` calls from state `s`. -/
def selectOutputs (s : RoundRobinState) : Nat → List (Except RotaErrorKind Proxy)
  | 0 => []
  | k + 1 =>
    let r := s.select
    r.1 :: selectOutputs r.2 k

theorem RoundRobinState.select_nonempty (P : List Proxy) (j : Nat) (hP : P ≠ []) :
    RoundRobinState.select ⟨P, j⟩ =
      (Except.ok (P.getD (j % P.length) default), ⟨P, j + 1⟩) := by
  have hlen : 0 < P.length := List.length_pos.mpr hP
  have hlt : j % P.length < P.length := Nat.mod_lt _ hlen
  simp only [RoundRobinState.select, List.isEmpty_iff, hP, if_false,
    List.getElem?_eq_getElem hlt, List.getD_eq_getElem P default hlt]

theorem selectOutputs_closed_form (P : List Proxy) (hP : P ≠ []) (k : Nat) :
    ∀ j, selectOutputs ⟨P, j⟩ k =
      (List.range k).map (fun i => Except.ok (P.getD ((j + i) % P.length) default)) := by
  induction k with
  | zero => intro j; rfl
  | succ k ih =>
    intro j
    rw [selectOutputs]
    simp only [RoundRobinState.select_nonempty P j hP]
    rw [ih (j + 1), List.range_succ_eq_map]
    simp only [List.map_cons, List.map_map, Nat.add_zero]
    refine congrArg (_ :: ·) ?_
    apply List.map_congr_left
    intro i _
    simp only [Function.comp_apply, Nat.succ_eq_add_one]
    ring_nf

theorem selectOutputs_refresh (P : List Proxy) (hP : P ≠ []) (s : RoundRobinState) :
    selectOutputs (s.refresh P) P.length = P.map Except.ok := by
  show selectOutputs ⟨P, 0⟩ P.length = P.map Except.ok
  rw [selectOutputs_closed_form P hP P.length 0]
  apply List.ext_getElem
  · simp
  · intro n h1 h2
    simp only [List.length_map, List.length_range] at h1
    have hn : n < P.length := by simpa using h2
    simp only [List.getElem_map, List.getElem_range, Nat.zero_add,
      Nat.mod_eq_of_lt hn, List.getD_eq_getElem P default hn]

/-- C1: after `refresh` with a non-empty pool `P` of size `n`, the first `n`
successive `select` calls return the elements of `P` in order (each exactly
once); `select` post-increments the cursor and indexes modulo the length, and
`refresh` resets the cursor to 0 so the cycle restarts at the first
element. -/
theorem c1_round_robin_cycle (s : RoundRobinState) (P : List Proxy) (hP : P ≠ []) :
    selectOutputs (s.refresh P) P.length = P.map Except.ok
    ∧ (s.refresh P).index = 0
    ∧ ∀ t : RoundRobinState, t.proxies ≠ [] →
        (t.select.2.index = t.index + 1
          ∧ t.select.1 = Except.ok (t.proxies.getD (t.index % t.proxies.length) default)) := by
  refine ⟨selectOutputs_refresh P hP s, rfl, ?_⟩
  intro t ht
  obtain ⟨Q, j⟩ := t
  rw [RoundRobinState.select_nonempty Q j ht]
  exact ⟨rfl, rfl⟩

/-- Sample proxies for concrete witnesses. -/
def exProxy1 : Proxy := ⟨1, "127.0.0.1:8081", "http", none, none⟩

def exProxy2 : Proxy := ⟨2, "127.0.0.1:8082", "http", none, none⟩

theorem c1_round_robin_cycle_witness :
    ([exProxy1, exProxy2] : List Proxy) ≠ []
    ∧ (selectOutputs (RoundRobinState.new.refresh [exProxy1, exProxy2]) 2
          = [exProxy1, exProxy2].map Except.ok
        ∧ (RoundRobinState.new.refresh [exProxy1, exProxy2]).index = 0
        ∧ ∀ t : RoundRobinState, t.proxies ≠ [] →
            (t.select.2.index = t.index + 1
              ∧ t.select.1 = Except.ok (t.proxies.getD (t.index % t.proxies.length) default))) :=
  ⟨by simp, c1_round_robin_cycle RoundRobinState.new [exProxy1, exProxy2] (by simp)⟩

/-! ## Connection tracker (src/proxy/rotation/mod.rs lines 84-121) -/

/-- Per-key acquire on the underlying map entries, modelled over an
association list: `entry(id).and_modify(inc).or_insert(1)`. -/
def trackAcquire (l : List (Int × Nat)) (id : Int) : List (Int × Nat) :=
  if l.any (fun e => decide (e.1 = id)) then
    l.map (fun e => if e.1 = id then (e.1, e.2 + 1) else e)
  else
    l ++ [(id, 1)]

/-- Per-key release: `entry(id).and_modify(|c| if c > 0 then c -= 1)`.  A
missing key is untouched (no `or_insert`), and a zero count stays zero. -/
def trackRelease (l : List (Int × Nat)) (id : Int) : List (Int × Nat) :=
  l.map (fun e => if e.1 = id then (e.1, if e.2 > 0 then e.2 - 1 else e.2) else e)

/-- Per-key lookup: `connections.get(&id).map(|v| *v).unwrap_or(0)`. -/
def trackGet (l : List (Int × Nat)) (id : Int) : Nat :=
  match l.find? (fun e => decide (e.1 = id)) with
  | some e => e.2
  | none => 0

/-- Model of `ConnectionTracker` (a `DashMap<i64, usize>`), modelled as an association
list of key-count pairs; the map operations above are keyed exactly as in the
source. -/
structure ConnectionTracker where
  connections : List (Int × Nat)
  deriving Repr

def ConnectionTracker.new : ConnectionTracker := ⟨[]⟩

def ConnectionTracker.acquire (t : ConnectionTracker) (proxyId : Int) : ConnectionTracker :=
  ⟨trackAcquire t.connections proxyId⟩

def ConnectionTracker.release (t : ConnectionTracker) (proxyId : Int) : ConnectionTracker :=
  ⟨trackRelease t.connections proxyId⟩

def ConnectionTracker.get (t : ConnectionTracker) (proxyId : Int) : Nat :=
  trackGet t.connections proxyId

/-- Iterated acquire. -/
def ConnectionTracker.acquireN (t : ConnectionTracker) (proxyId : Int) : Nat → ConnectionTracker
  | 0 => t
  | k + 1 => (t.acquire proxyId).acquireN proxyId k

/-- Iterated release. -/
def ConnectionTracker.releaseN (t : ConnectionTracker) (proxyId : Int) : Nat → ConnectionTracker
  | 0 => t
  | k + 1 => (t.release proxyId).releaseN proxyId k

theorem trackGet_mapValue (l : List (Int × Nat)) (id j : Int) (g : Nat → Nat) :
    trackGet (l.map (fun e => if e.1 = id then (e.1, g e.2) else e)) j
      = if j = id then
          (match l.find? (fun e => decide (e.1 = id)) with
            | some e => g e.2
            | none => 0)
        else trackGet l j := by
  induction l with
  | nil =>
    simp only [List.map_nil, trackGet, List.find?_nil]
    split <;> rfl
  | cons e rest ih =>
    by_cases hei : e.1 = id
    · by_cases hej : e.1 = j
      · have hji : j = id := hej ▸ hei
        simp [trackGet, List.find?_cons, hei, hej, hji]
      · have hji : ¬ j = id := fun h => hej (hei.trans h.symm)
        rw [if_neg hji] at ih ⊢
        simp only [List.map_cons]
        rw [if_pos hei]
        unfold trackGet
        simp only [List.find?_cons]
        simp only [hej, decide_eq_true_eq, if_false, decide_eq_false_iff_not,
          not_false_eq_true]
        exact ih
    · by_cases hej : e.1 = j
      · have hji : ¬ j = id := fun h => hei (hej.trans h)
        simp [trackGet, List.find?_cons, hei, hej, hji]
      · simp only [List.map_cons]
        rw [if_neg hei]
        unfold trackGet
        simp only [List.find?_cons]
        simp only [hei, hej, decide_eq_true_eq, if_false, decide_eq_false_iff_not,
          not_false_eq_true]
        exact ih

theorem trackGet_release (l : List (Int × Nat)) (id j : Int) :
    trackGet (trackRelease l id) j = if j = id then trackGet l j - 1 else trackGet l j := by
  have h := trackGet_mapValue l id j (fun v => if v > 0 then v - 1 else v)
  beta_reduce at h
  rw [trackRelease, h]
  by_cases hji : j = id
  · subst hji
    simp only [if_true]
    unfold trackGet
    cases l.find? (fun e => decide (e.1 = j)) with
    | none => rfl
    | some e =>
      by_cases hv : e.2 > 0
      · simp [hv]
      · simp only [hv, if_false]
        omega
  · simp [hji]

theorem trackGet_absent (l : List (Int × Nat)) (id : Int)
    (habs : ∀ e ∈ l, ¬ e.1 = id) : trackGet l id = 0 := by
  unfold trackGet
  rw [List.find?_eq_none.mpr (fun e he => by simp [habs e he])]

theorem trackGet_acquire (l : List (Int × Nat)) (id j : Int) :
    trackGet (trackAcquire l id) j = if j = id then trackGet l j + 1 else trackGet l j := by
  by_cases hmem : l.any (fun e => decide (e.1 = id)) = true
  · have h := trackGet_mapValue l id j (fun v => v + 1)
    beta_reduce at h
    rw [trackAcquire, if_pos hmem, h]
    by_cases hji : j = id
    · subst hji
      have hsome : (l.find? (fun e => decide (e.1 = j))).isSome := by
        rw [List.find?_isSome]
        simpa using List.any_eq_true.mp hmem
      simp only [if_true]
      unfold trackGet
      cases hfind : l.find? (fun e => decide (e.1 = j)) with
      | none => rw [hfind] at hsome; simp at hsome
      | some e => rfl
    · simp [hji]
  · rw [trackAcquire, if_neg hmem]
    have habs : ∀ e ∈ l, ¬ e.1 = id := by
      intro e he hcontra
      exact hmem (List.any_eq_true.mpr ⟨e, he, by simp [hcontra]⟩)
    unfold trackGet
    rw [List.find?_append]
    by_cases hji : j = id
    · subst hji
      rw [List.find?_eq_none.mpr (fun e he => by simp [habs e he])]
      simp [List.find?_cons]
    · have hij : ¬ id = j := fun h => hji h.symm
      have hnone : List.find? (fun e => decide (e.1 = j)) [(id, 1)] = none := by
        simp [List.find?_cons, hij]
      rw [hnone, if_neg hji]
      cases l.find? (fun e => decide (e.1 = j)) <;> rfl

theorem ConnectionTracker.get_acquireN (t : ConnectionTracker) (id : Int) (k : Nat) :
    (t.acquireN id k).get id = t.get id + k := by
  induction k generalizing t with
  | zero => rfl
  | succ k ih =>
    show ((t.acquire id).acquireN id k).get id = t.get id + (k + 1)
    rw [ih]
    show trackGet (trackAcquire t.connections id) id + k = t.get id + (k + 1)
    rw [trackGet_acquire]
    simp [ConnectionTracker.get]
    omega

theorem ConnectionTracker.get_releaseN (t : ConnectionTracker) (id : Int) (k : Nat) :
    (t.releaseN id k).get id = t.get id - k := by
  induction k generalizing t with
  | zero => rfl
  | succ k ih =>
    show ((t.release id).releaseN id k).get id = t.get id - (k + 1)
    rw [ih]
    show trackGet (trackRelease t.connections id) id - k = t.get id - (k + 1)
    rw [trackGet_release]
    simp [ConnectionTracker.get]
    omega

/-- C8: for every id and every k, `acquire(id)` k times followed by
`release(id)` k times leaves the tracker count for id at 0; `release` never
takes a count below 0: on any tracker the count after a release is the
truncated predecessor, so releasing an id whose count is 0 (in particular an
id never acquired) leaves every observable count unchanged. -/
theorem c8_tracker_balance (id : Int) (k : Nat) (t : ConnectionTracker) (j : Int)
    (hz : t.get id = 0) :
    ((ConnectionTracker.new.acquireN id k).releaseN id k).get id = 0
    ∧ (t.release id).get j = (if j = id then t.get j - 1 else t.get j)
    ∧ (t.release id).get j = t.get j := by
  refine ⟨?_, trackGet_release t.connections id j, ?_⟩
  · rw [ConnectionTracker.get_releaseN, ConnectionTracker.get_acquireN]
    simp [ConnectionTracker.get, ConnectionTracker.new, trackGet]
  · rw [show (t.release id).get j = trackGet (trackRelease t.connections id) j from rfl,
      trackGet_release]
    by_cases hji : j = id
    · subst hji
      unfold ConnectionTracker.get at hz ⊢
      rw [if_pos rfl, hz]
    · rw [if_neg hji]
      rfl

theorem c8_tracker_balance_witness :
    (ConnectionTracker.new.get 7 = 0)
    ∧ (((ConnectionTracker.new.acquireN 7 3).releaseN 7 3).get 7 = 0
        ∧ (ConnectionTracker.new.release 7).get 7
            = (if (7 : Int) = 7 then ConnectionTracker.new.get 7 - 1 else ConnectionTracker.new.get 7)
        ∧ (ConnectionTracker.new.release 7).get 7 = ConnectionTracker.new.get 7) :=
  ⟨by decide, c8_tracker_balance 7 3 ConnectionTracker.new 7 (by decide)⟩

/-! ## Rotation strategy names (src/proxy/rotation/mod.rs lines 24-53) -/

/-- The `RotationStrategy` enum. -/
inductive RotationStrategy where
  | random
  | roundRobin
  | leastConnections
  | timeBased
  deriving DecidableEq, Repr

/-- The strings recognised by `RotationStrategy::from_str` after
lowercasing (everything else falls to the `Random` default arm). -/
def recognizedStrategyNames : List String :=
  ["round_robin", "roundrobin", "round-robin",
   "least_connections", "leastconnections", "least-connections", "least_conn",
   "time_based", "timebased", "time-based"]

/-- Model of `RotationStrategy::from_str`: lowercase, then match the recognised
aliases; any other string maps to `Random`. -/
def RotationStrategy.fromStr (s : String) : RotationStrategy :=
  let t := lowerAscii s
  if t = "round_robin" ∨ t = "roundrobin" ∨ t = "round-robin" then
    RotationStrategy.roundRobin
  else if t = "least_connections" ∨ t = "leastconnections"
      ∨ t = "least-connections" ∨ t = "least_conn" then
    RotationStrategy.leastConnections
  else if t = "time_based" ∨ t = "timebased" ∨ t = "time-based" then
    RotationStrategy.timeBased
  else
    RotationStrategy.random

/-- Model of `RotationStrategy::as_str`. -/
def RotationStrategy.asStr : RotationStrategy → String
  | RotationStrategy.random => "random"
  | RotationStrategy.roundRobin => "round_robin"
  | RotationStrategy.leastConnections => "least_connections"
  | RotationStrategy.timeBased => "time_based"

/-- C9: `RotationStrategy::from_str` is total and round-trips with `as_str`:
for each of the four variants K, `from_str (as_str K) = K`, and every string
whose lowercasing matches no recognised strategy name maps to `Random`
rather than failing. -/
theorem c9_strategy_roundtrip (s : String)
    (h : lowerAscii s ∉ recognizedStrategyNames) :
    (∀ K : RotationStrategy, RotationStrategy.fromStr K.asStr = K)
    ∧ RotationStrategy.fromStr s = RotationStrategy.random := by
  constructor
  · intro K
    cases K <;> decide
  · simp only [recognizedStrategyNames, List.mem_cons, List.not_mem_nil, or_false,
      not_or] at h
    obtain ⟨h1, h2, h3, h4, h5, h6, h7, h8, h9, h10⟩ := h
    simp [RotationStrategy.fromStr, h1, h2, h3, h4, h5, h6, h7, h8, h9, h10]

theorem c9_strategy_roundtrip_witness :
    lowerAscii "SomeUnknownName" ∉ recognizedStrategyNames
    ∧ ((∀ K : RotationStrategy, RotationStrategy.fromStr K.asStr = K)
        ∧ RotationStrategy.fromStr "SomeUnknownName" = RotationStrategy.random) :=
  ⟨by decide, c9_strategy_roundtrip "SomeUnknownName" (by decide)⟩

/-! ## String parsing primitives

Models of the Rust standard library parsers the transport layer calls
(`Ipv4Addr::from_str`, `u16::from_str`, socket-address parsing) and of the
`base64` crate STANDARD engine used for `Proxy-Authorization` values. -/

/-- Value of a list of decimal digit characters. -/
def digitsToNat (cs : List Char) : Nat :=
  cs.foldl (fun a c => a * 10 + (c.toNat - 48)) 0

/-- One octet of `Ipv4Addr::from_str`: one to three decimal digits, no
leading zero (except the single digit 0), value at most 255. -/
def parseOctet (cs : List Char) : Option Nat :=
  if cs = [] then none
  else if ¬ cs.all Char.isDigit then none
  else if 1 < cs.length ∧ cs.head? = some '0' then none
  else if 3 < cs.length then none
  else
    let v := digitsToNat cs
    if v ≤ 255 then some v else none

/-- Split a character list into the groups between every occurrence of
`sep` (like Rust `str::split`). -/
def splitAllChar (sep : Char) : List Char → List (List Char)
  | [] => [[]]
  | c :: rest =>
    let r := splitAllChar sep rest
    if c = sep then [] :: r
    else
      match r with
      | [] => [[c]]
      | g :: gs => (c :: g) :: gs

/-- Model of `Ipv4Addr::from_str`: exactly four octets separated by dots. -/
def parseIpv4 (s : String) : Option (Nat × Nat × Nat × Nat) :=
  match splitAllChar '.' s.data with
  | [a, b, c, d] =>
    match parseOctet a, parseOctet b, parseOctet c, parseOctet d with
    | some va, some vb, some vc, some vd => some (va, vb, vc, vd)
    | _, _, _, _ => none
  | _ => none

/-- Model of `u16::from_str`: an optional leading plus sign, then one or more decimal
digits (leading zeros permitted), value at most 65535. -/
def parseU16 (s : String) : Option Nat :=
  let t := if s.data.head? = some '+' then s.data.tail else s.data
  if t = [] then none
  else if t.all Char.isDigit then
    let v := digitsToNat t
    if v ≤ 65535 then some v else none
  else none

/-- Port component of a socket-address literal: decimal digits only (no
sign), value at most 65535. -/
def parsePortDigits (cs : List Char) : Option Nat :=
  if cs = [] then none
  else if cs.all Char.isDigit then
    let v := digitsToNat cs
    if v ≤ 65535 then some v else none
  else none

/-- Split at the first occurrence of `sep` (Rust `str::split_once`). -/
def splitOnceCharList (sep : Char) : List Char → Option (List Char × List Char)
  | [] => none
  | c :: rest =>
    if c = sep then some ([], rest)
    else
      match splitOnceCharList sep rest with
      | some (pre, suf) => some (c :: pre, suf)
      | none => none

/-- Split at the last occurrence of `sep` (Rust `str::rsplit_once`). -/
def rsplitOnceCharList (sep : Char) : List Char → Option (List Char × List Char)
  | [] => none
  | c :: rest =>
    match rsplitOnceCharList sep rest with
    | some (pre, suf) => some (c :: pre, suf)
    | none => if c = sep then some ([], rest) else none

/-- Model of `SocketAddr::from_str` restricted to the IPv4 `a.b.c.d:port` form.  The
bracketed IPv6 form Rust also accepts is not modelled; no claim settled here
depends on an IPv6 proxy address. -/
def parseSocketAddrV4 (s : String) : Option ((Nat × Nat × Nat × Nat) × Nat) := do
  let (h, p) ← splitOnceCharList ':' s.data
  let ip ← parseIpv4 ⟨h⟩
  let port ← parsePortDigits p
  pure (ip, port)

/-- The base64 STANDARD alphabet. -/
def base64Alphabet : List Char :=
  "ABCDEFGHIJKLMNOPQRSTUVWXYZabcdefghijklmnopqrstuvwxyz0123456789+/".data

def base64CharOf (n : Nat) : Char :=
  base64Alphabet.getD n 'A'

/-- Canonical padded base64 of a byte list (the `base64` crate STANDARD
engine `encode`). -/
def base64EncodeBytes : List Nat → List Char
  | [] => []
  | [b1] => [base64CharOf (b1 / 4), base64CharOf (b1 % 4 * 16), '=', '=']
  | [b1, b2] =>
    [base64CharOf (b1 / 4), base64CharOf (b1 % 4 * 16 + b2 / 16),
     base64CharOf (b2 % 16 * 4), '=']
  | b1 :: b2 :: b3 :: rest =>
    base64CharOf (b1 / 4) :: base64CharOf (b1 % 4 * 16 + b2 / 16) ::
      base64CharOf (b2 % 16 * 4 + b3 / 64) :: base64CharOf (b3 % 64) ::
      base64EncodeBytes rest

/-- UTF-8 encoding of one scalar value. -/
def charUtf8Bytes (c : Char) : List Nat :=
  let n := c.toNat
  if n < 128 then [n]
  else if n < 2048 then [192 + n / 64, 128 + n % 64]
  else if n < 65536 then [224 + n / 4096, 128 + n / 64 % 64, 128 + n % 64]
  else [240 + n / 262144, 128 + n / 4096 % 64, 128 + n / 64 % 64, 128 + n % 64]

/-- UTF-8 bytes of a string, as `Nat` values. -/
def stringUtf8Bytes (s : String) : List Nat :=
  s.data.flatMap charUtf8Bytes

def base64Encode (bytes : List Nat) : String :=
  ⟨base64EncodeBytes bytes⟩

/-- The `Basic base64(user:pass)` credential value built by the handler and
the transport. -/
def basicCredentials (u p : String) : String :=
  "Basic " ++ base64Encode (stringUtf8Bytes (u ++ ":" ++ p))

/-! ## Transport front-ends (src/proxy/transport.rs) -/

/-- The data each protocol branch of `ProxyTransport::connect` has computed
at the moment it first touches the network: everything up to that point is
pure and is what the embedding captures. -/
inductive UpstreamDial where
  | httpConnect (connectRequest : String)
  | socks4Dial (proxySock : (Nat × Nat × Nat × Nat) × Nat)
      (targetIp : Nat × Nat × Nat × Nat) (targetPort : Nat)
      (creds : Option (String × String))
  | socks4aDial (proxySock : (Nat × Nat × Nat × Nat) × Nat)
      (targetSock : (Nat × Nat × Nat × Nat) × Nat)
      (creds : Option (String × String))
  | socks5Dial (proxySock : (Nat × Nat × Nat × Nat) × Nat)
      (targetSock : (Nat × Nat × Nat × Nat) × Nat)
      (creds : Option (String × String))
  deriving DecidableEq, Repr

/-- Both optional credentials, when present (the `if let (Some, Some)`
pattern used throughout the source). -/
def Proxy.creds (proxy : Proxy) : Option (String × String) :=
  match proxy.username, proxy.password with
  | some u, some p => some (u, p)
  | _, _ => none

namespace ProxyTransport

/-- Model of `ProxyTransport::build_connect_request` (transport.rs lines 79-94). -/
def buildConnectRequest (proxy : Proxy) (targetHost : String) (targetPort : Nat) : String :=
  let request := "CONNECT " ++ targetHost ++ ":" ++ toString targetPort
    ++ " HTTP/1.1\r\nHost: " ++ targetHost ++ ":" ++ toString targetPort ++ "\r\n"
  let request := match proxy.creds with
    | some (u, p) =>
      request ++ "Proxy-Authorization: " ++ basicCredentials u p ++ "\r\n"
    | none => request
  request ++ "\r\n"

/-- Error message of the SOCKS4 non-IPv4-target rejection
(transport.rs lines 105-110). -/
def socks4HostErrorMsg : String :=
  "SOCKS4 requires IP address, not hostname. Use SOCKS4a or SOCKS5 for DNS resolution"

/-- Model of `ProxyTransport::connect_socks4` (transport.rs lines 97-129) up to the
network boundary: the target must parse as an IPv4 literal (else
`ProxyConnectionFailed` with the message above), then the proxy address
must parse as a socket address (else `InvalidProxyAddress`). -/
def connectSocks4 (proxy : Proxy) (targetHost : String) (targetPort : Nat) :
    Except RotaErrorKind UpstreamDial :=
  match parseIpv4 targetHost with
  | none => Except.error (RotaErrorKind.proxyConnectionFailed socks4HostErrorMsg)
  | some targetIp =>
    match parseSocketAddrV4 proxy.address with
    | none => Except.error
        (RotaErrorKind.invalidProxyAddress ("Invalid proxy address: " ++ proxy.address))
    | some proxySock =>
      Except.ok (UpstreamDial.socks4Dial proxySock targetIp targetPort proxy.creds)

/-- Model of `ProxyTransport::connect_socks4a` (transport.rs lines 132-164) up to the
network boundary: proxy address first, then the `host:port` target string
must itself parse as a socket address. -/
def connectSocks4a (proxy : Proxy) (targetHost : String) (targetPort : Nat) :
    Except RotaErrorKind UpstreamDial :=
  match parseSocketAddrV4 proxy.address with
  | none => Except.error
      (RotaErrorKind.invalidProxyAddress ("Invalid proxy address: " ++ proxy.address))
  | some proxySock =>
    let target := targetHost ++ ":" ++ toString targetPort
    match parseSocketAddrV4 target with
    | none => Except.error
        (RotaErrorKind.invalidRequest ("Invalid target address: " ++ target))
    | some targetSock =>
      Except.ok (UpstreamDial.socks4aDial proxySock targetSock proxy.creds)

/-- Model of `ProxyTransport::connect_socks5` (transport.rs lines 167-199) up to the
network boundary; same parsing structure as SOCKS4a. -/
def connectSocks5 (proxy : Proxy) (targetHost : String) (targetPort : Nat) :
    Except RotaErrorKind UpstreamDial :=
  match parseSocketAddrV4 proxy.address with
  | none => Except.error
      (RotaErrorKind.invalidProxyAddress ("Invalid proxy address: " ++ proxy.address))
  | some proxySock =>
    let target := targetHost ++ ":" ++ toString targetPort
    match parseSocketAddrV4 target with
    | none => Except.error
        (RotaErrorKind.invalidRequest ("Invalid target address: " ++ target))
    | some targetSock =>
      Except.ok (UpstreamDial.socks5Dial proxySock targetSock proxy.creds)

/-- Model of `ProxyTransport::connect` (transport.rs lines 23-36): lowercase the
protocol and dispatch; unknown protocols fail with `UnsupportedProtocol`. -/
def connect (proxy : Proxy) (targetHost : String) (targetPort : Nat) :
    Except RotaErrorKind UpstreamDial :=
  let protocol := lowerAscii proxy.protocol
  if protocol = "http" ∨ protocol = "https" then
    Except.ok (UpstreamDial.httpConnect (buildConnectRequest proxy targetHost targetPort))
  else if protocol = "socks4" then
    connectSocks4 proxy targetHost targetPort
  else if protocol = "socks4a" then
    connectSocks4a proxy targetHost targetPort
  else if protocol = "socks5" then
    connectSocks5 proxy targetHost targetPort
  else
    Except.error (RotaErrorKind.unsupportedProtocol protocol)

end ProxyTransport

/-- Classifier for the error kind named by claim C4. -/
def isInvalidProxyAddressError : Except RotaErrorKind UpstreamDial → Bool
  | Except.error (RotaErrorKind.invalidProxyAddress _) => true
  | _ => false

/-- A SOCKS4 proxy used as the concrete counterexample input. -/
def exSocks4Proxy : Proxy := ⟨3, "127.0.0.1:1080", "socks4", none, none⟩

/-- C4 counterexample: the claim says a SOCKS4 connect to a DNS-name target
fails with `InvalidProxyAddress`; on the concrete proxy 127.0.0.1:1080 and
target example.com the code instead fails with `ProxyConnectionFailed`
(the untouched-IPv4 rejection), so the claimed error kind is wrong. -/
theorem c4_socks4_error_kind_counterexample :
    ProxyTransport.connect exSocks4Proxy "example.com" 443
      = Except.error (RotaErrorKind.proxyConnectionFailed ProxyTransport.socks4HostErrorMsg)
    ∧ isInvalidProxyAddressError (ProxyTransport.connect exSocks4Proxy "example.com" 443)
      = false := by
  constructor
  · rfl
  · rfl

/-- C4 (amended): for every proxy whose protocol is socks4, `connect` with a
target host that is not an IPv4 literal (in particular any DNS name) fails
with the error kind `ProxyConnectionFailed`, carrying the fixed
SOCKS4-requires-IP message — not `InvalidProxyAddress`. -/
theorem c4_socks4_dns_rejected (proxy : Proxy) (host : String) (port : Nat)
    (hp : lowerAscii proxy.protocol = "socks4") (hh : parseIpv4 host = none) :
    ProxyTransport.connect proxy host port
      = Except.error (RotaErrorKind.proxyConnectionFailed ProxyTransport.socks4HostErrorMsg) := by
  unfold ProxyTransport.connect
  rw [hp]
  have h1 : ¬ (("socks4" : String) = "http" ∨ ("socks4" : String) = "https") := by decide
  rw [if_neg h1, if_pos rfl]
  unfold ProxyTransport.connectSocks4
  rw [hh]

theorem c4_socks4_dns_rejected_witness :
    (lowerAscii exSocks4Proxy.protocol = "socks4" ∧ parseIpv4 "target.internal" = none)
    ∧ ProxyTransport.connect exSocks4Proxy "target.internal" 8080
        = Except.error (RotaErrorKind.proxyConnectionFailed ProxyTransport.socks4HostErrorMsg) :=
  ⟨⟨by decide, by decide⟩,
    c4_socks4_dns_rejected exSocks4Proxy "target.internal" 8080 (by decide) (by decide)⟩

/-! ## CONNECT authority parsing (src/proxy/transport.rs lines 217-227) -/

/-- Model of `ProxyTransport::parse_authority`: `rsplit_once` on the colon; with a
colon, parse the suffix as a u16 port (`InvalidRequest` on failure); with no
colon, default the port to 443. -/
def parseAuthority (authority : String) : Except RotaErrorKind (String × Nat) :=
  match rsplitOnceCharList ':' authority.data with
  | some (pre, suf) =>
    match parseU16 ⟨suf⟩ with
    | some port => Except.ok (⟨pre⟩, port)
    | none => Except.error (RotaErrorKind.invalidRequest "Invalid port")
  | none => Except.ok (authority, 443)

theorem rsplitOnceCharList_none (sep : Char) (cs : List Char)
    (h : rsplitOnceCharList sep cs = none) : sep ∉ cs := by
  induction cs with
  | nil => simp
  | cons c rest ih =>
    intro hmem
    unfold rsplitOnceCharList at h
    cases hr : rsplitOnceCharList sep rest with
    | some pr => rw [hr] at h; cases h
    | none =>
      rw [hr] at h
      by_cases hc : c = sep
      · rw [if_pos hc] at h; cases h
      · rcases List.mem_cons.mp hmem with he | he
        · exact hc he.symm
        · exact ih hr he

theorem rsplitOnceCharList_some (sep : Char) (cs pre suf : List Char)
    (h : rsplitOnceCharList sep cs = some (pre, suf)) :
    cs = pre ++ sep :: suf ∧ sep ∉ suf := by
  induction cs generalizing pre suf with
  | nil => cases h
  | cons c rest ih =>
    unfold rsplitOnceCharList at h
    cases hr : rsplitOnceCharList sep rest with
    | some pr =>
      rw [hr] at h
      obtain ⟨p0, s0⟩ := pr
      injection h with h
      have hps : pre = c :: p0 ∧ suf = s0 := by
        have h1 := congrArg Prod.fst h
        have h2 := congrArg Prod.snd h
        exact ⟨h1.symm, h2.symm⟩
      obtain ⟨hpre, hsuf⟩ := hps
      obtain ⟨hcs, hns⟩ := ih p0 s0 hr
      subst hpre hsuf
      exact ⟨by rw [hcs]; rfl, hns⟩
    | none =>
      rw [hr] at h
      by_cases hc : c = sep
      · rw [if_pos hc] at h
        injection h with h
        have h1 := congrArg Prod.fst h
        have h2 := congrArg Prod.snd h
        simp only at h1 h2
        subst hc
        rw [← h1, ← h2]
        exact ⟨rfl, rsplitOnceCharList_none c rest hr⟩
      · rw [if_neg hc] at h
        cases h

/-- C10 counterexample: the claim asserts that an unbracketed IPv6 literal
such as ::1 is rejected, but `parse_authority` splits ::1 at its last colon
into host : and the valid port 1, returning them successfully. -/
theorem c10_parse_authority_counterexample :
    parseAuthority "::1" = Except.ok (":", 1) := by
  rfl

/-- C10 (amended): `parse_authority` splits at the last colon: an authority
with no colon yields the 443 default; otherwise the prefix is the host and
the suffix must parse as a u16 port, with `InvalidRequest` exactly when it
does not.  An unbracketed IPv6 literal whose last group is a valid port
number (such as ::1) is therefore split, not rejected. -/
theorem c10_parse_authority (authority : String) :
    (rsplitOnceCharList ':' authority.data = none →
      ((':' ∉ authority.data) ∧ parseAuthority authority = Except.ok (authority, 443)))
    ∧ ∀ pre suf, rsplitOnceCharList ':' authority.data = some (pre, suf) →
        (authority.data = pre ++ ':' :: suf ∧ ':' ∉ suf
          ∧ parseAuthority authority =
              (match parseU16 ⟨suf⟩ with
                | some port => Except.ok (⟨pre⟩, port)
                | none => Except.error (RotaErrorKind.invalidRequest "Invalid port"))) := by
  constructor
  · intro h
    refine ⟨rsplitOnceCharList_none ':' authority.data h, ?_⟩
    unfold parseAuthority
    rw [h]
  · intro pre suf h
    obtain ⟨hsplit, hns⟩ := rsplitOnceCharList_some ':' authority.data pre suf h
    refine ⟨hsplit, hns, ?_⟩
    unfold parseAuthority
    rw [h]

theorem c10_parse_authority_witness :
    rsplitOnceCharList ':' ("example.com:8443" : String).data
        = some ("example.com".data, "8443".data)
    ∧ (("example.com:8443" : String).data = "example.com".data ++ ':' :: "8443".data
        ∧ ':' ∉ "8443".data
        ∧ parseAuthority "example.com:8443" =
            (match parseU16 ⟨"8443".data⟩ with
              | some port => Except.ok (⟨"example.com".data⟩, port)
              | none => Except.error (RotaErrorKind.invalidRequest "Invalid port"))) :=
  ⟨by decide,
    (c10_parse_authority "example.com:8443").2 "example.com".data "8443".data (by decide)⟩

/-! ## Hop-by-hop header handling (src/proxy/handler.rs lines 399-496, 557-569) -/

/-- Model of `is_hop_by_hop_header` (handler.rs lines 557-569): lowercase the name and
match the eight hop-by-hop header names. -/
def isHopByHopHeader (name : String) : Bool :=
  let n := lowerAscii name
  n = "connection" || n = "keep-alive" || n = "proxy-authenticate"
    || n = "proxy-authorization" || n = "te" || n = "trailers"
    || n = "transfer-encoding" || n = "upgrade"

/-- Headers of the outbound request `forward_request` builds
(handler.rs lines 446-459): copy every incoming header that is not
hop-by-hop, then append a `Proxy-Authorization` header when the selected
upstream proxy carries credentials.  Header names are carried as hyper
stores them (lowercased on the incoming side). -/
def outboundHeaders (proxy : Proxy) (reqHeaders : List (String × String)) :
    List (String × String) :=
  let base := reqHeaders.filter (fun h => ¬ isHopByHopHeader h.1)
  match proxy.creds with
  | some (u, p) => base ++ [("proxy-authorization", basicCredentials u p)]
  | none => base

/-- Headers of the response returned to the client (handler.rs lines
486-495): `Response::from_parts(parts, ...)` reuses the upstream response
parts unchanged, so the upstream headers pass through with no filtering. -/
def responseHeadersToClient (upstreamHeaders : List (String × String)) :
    List (String × String) :=
  upstreamHeaders

/-- The property claim C3 asserts, as a predicate over one forward exchange:
no hop-by-hop header name in the outbound request and none in the response
returned to the client. -/
def hopByHopStrippedBothWays (proxy : Proxy) (reqHeaders upstreamHeaders : List (String × String)) : Prop :=
  (∀ h ∈ outboundHeaders proxy reqHeaders, isHopByHopHeader h.1 = false)
    ∧ ∀ h ∈ responseHeadersToClient upstreamHeaders, isHopByHopHeader h.1 = false

instance (proxy : Proxy) (reqHeaders upstreamHeaders : List (String × String)) :
    Decidable (hopByHopStrippedBothWays proxy reqHeaders upstreamHeaders) := by
  unfold hopByHopStrippedBothWays
  infer_instance

/-- A proxy carrying credentials, for the request-direction counterexample. -/
def exCredProxy : Proxy := ⟨4, "10.0.0.9:3128", "http", some "u", some "p"⟩

/-- C3 counterexample: both directions of the claim fail on concrete
exchanges.  An upstream response carrying transfer-encoding reaches the
client unfiltered, and a credentialed proxy receives an outbound request
carrying a (freshly added) proxy-authorization header — both names are in
the hop-by-hop list the claim says is stripped. -/
theorem c3_hop_by_hop_counterexample :
    ¬ hopByHopStrippedBothWays exProxy1 [] [("transfer-encoding", "chunked")]
    ∧ ¬ hopByHopStrippedBothWays exCredProxy [("host", "t")] []
    ∧ isHopByHopHeader "transfer-encoding" = true
    ∧ isHopByHopHeader "proxy-authorization" = true := by
  refine ⟨?_, ?_, rfl, rfl⟩
  · intro hprop
    have hmem := hprop.2 ("transfer-encoding", "chunked") (by decide)
    rw [show isHopByHopHeader "transfer-encoding" = true from rfl] at hmem
    cases hmem
  · intro hprop
    have hin : ("proxy-authorization", basicCredentials "u" "p")
        ∈ outboundHeaders exCredProxy [("host", "t")] := by
      simp [outboundHeaders, exCredProxy, Proxy.creds]
    have hmem := hprop.1 ("proxy-authorization", basicCredentials "u" "p") hin
    rw [show isHopByHopHeader "proxy-authorization" = true from rfl] at hmem
    cases hmem

/-- C3 (amended): the hop-by-hop filter applies to the incoming forward
request only: every header of the outbound request except a freshly added
proxy-authorization (present exactly when the upstream proxy carries both
credentials) is non-hop-by-hop, and for a credential-less proxy no
hop-by-hop header at all reaches the outbound request; the upstream
response headers are returned to the client unchanged, with no hop-by-hop
filtering. -/
theorem c3_hop_by_hop_request_only (proxy : Proxy)
    (reqHeaders upstreamHeaders : List (String × String)) :
    (∀ h ∈ outboundHeaders proxy reqHeaders,
        isHopByHopHeader h.1 = true →
          (h.1 = "proxy-authorization" ∧ proxy.creds.isSome))
    ∧ (proxy.creds = none →
        ∀ h ∈ outboundHeaders proxy reqHeaders, isHopByHopHeader h.1 = false)
    ∧ responseHeadersToClient upstreamHeaders = upstreamHeaders := by
  refine ⟨?_, ?_, rfl⟩
  · intro h hmem hhop
    unfold outboundHeaders at hmem
    cases hcreds : proxy.creds with
    | none =>
      rw [hcreds] at hmem
      have := List.of_mem_filter hmem
      simp only [hhop] at this
      cases this
    | some up =>
      obtain ⟨u, p⟩ := up
      rw [hcreds] at hmem
      rcases List.mem_append.mp hmem with hbase | hlast
      · have := List.of_mem_filter hbase
        simp only [hhop] at this
        cases this
      · have heq : h = ("proxy-authorization", basicCredentials u p) := by
          simpa using hlast
        rw [heq]
        exact ⟨rfl, rfl⟩
  · intro hcreds h hmem
    unfold outboundHeaders at hmem
    rw [hcreds] at hmem
    have := List.of_mem_filter hmem
    simpa using this

theorem c3_hop_by_hop_request_only_witness :
    (("host", "t") ∈ outboundHeaders exCredProxy [("host", "t"), ("connection", "close")] →
      isHopByHopHeader "host" = true →
        (("host", "t") : String × String).1 = "proxy-authorization" ∧ exCredProxy.creds.isSome)
    ∧ (exCredProxy.creds = none →
        ∀ h ∈ outboundHeaders exCredProxy [("host", "t"), ("connection", "close")],
          isHopByHopHeader h.1 = false)
    ∧ responseHeadersToClient [("server", "nginx")] = [("server", "nginx")] :=
  ⟨fun hmem hhop =>
      (c3_hop_by_hop_request_only exCredProxy
        [("host", "t"), ("connection", "close")] [("server", "nginx")]).1
        ("host", "t") hmem hhop,
    (c3_hop_by_hop_request_only exCredProxy
      [("host", "t"), ("connection", "close")] [("server", "nginx")]).2.1,
    (c3_hop_by_hop_request_only exCredProxy
      [("host", "t"), ("connection", "close")] [("server", "nginx")]).2.2⟩

/-! ## Forwarding-mode retry loop status (src/proxy/handler.rs lines 266-397, 399-496) -/

/-- The two phases of `forward_request` that are bounded by a deadline
(connect: handler.rs line 433; request: handler.rs line 479). -/
inductive ForwardPhase where
  | connectPhase
  | requestPhase
  deriving DecidableEq, Repr

/-- Error produced when a `forward_request` phase exceeds its deadline: both
`tokio::time::timeout` wrappers use `map_err(|_| RotaError::Timeout)`, so
the two phases are indistinguishable in the error value. -/
def forwardTimeoutError : ForwardPhase → RotaErrorKind
  | ForwardPhase.connectPhase => RotaErrorKind.timeout
  | ForwardPhase.requestPhase => RotaErrorKind.timeout

/-- Final status of the `handle_http` retry loop (handler.rs lines 295-397)
as a function of the per-attempt `forward_request` outcomes (each outcome is
the upstream status code, or the error of that attempt): the first
successful attempt's response is returned, and when every attempt has
failed — whatever the errors were — the handler answers with
`StatusCode::BAD_GATEWAY`, i.e. 502 (handler.rs lines 390-396). -/
def handleHttpStatus : List (Except RotaErrorKind Nat) → Nat
  | [] => 502
  | Except.ok code :: _ => code
  | Except.error _ :: rest => handleHttpStatus rest

/-- C2 counterexample: with every attempt failing on a request-phase
timeout (concretely, four attempts at the default max_retries = 3), the
handler returns 502, not the 504 the claim asserts. -/
theorem c2_timeout_status_counterexample :
    handleHttpStatus
        (List.replicate 4 (Except.error (forwardTimeoutError ForwardPhase.requestPhase)))
      = 502
    ∧ (502 : Nat) ≠ 504 := by
  constructor
  · rfl
  · decide

/-- C2 (amended): in forwarding mode, when every attempt fails — in
particular when every attempt fails because the request phase exceeded its
deadline — the handler returns 502 Bad Gateway after exhausting retries,
the same status as exhausted connect-phase timeouts; both phases map their
deadline errors to `RotaError::Timeout`, and the forwarding retry loop
never produces 504. -/
theorem c2_exhausted_retries_status (attempts : List (Except RotaErrorKind Nat))
    (hfail : ∀ a ∈ attempts, ∃ e, a = Except.error e) :
    handleHttpStatus attempts = 502
    ∧ (∀ phase, forwardTimeoutError phase = RotaErrorKind.timeout)
    ∧ handleHttpStatus attempts ≠ 504 := by
  have h502 : handleHttpStatus attempts = 502 := by
    induction attempts with
    | nil => rfl
    | cons a rest ih =>
      obtain ⟨e, he⟩ := hfail a (by simp)
      subst he
      exact ih (fun b hb => hfail b (by simp [hb]))
  refine ⟨h502, fun phase => by cases phase <;> rfl, ?_⟩
  rw [h502]
  decide

/-- A concrete all-failing attempt sequence (two request-phase timeouts
around a refused connection). -/
def exFailedAttempts : List (Except RotaErrorKind Nat) :=
  [Except.error RotaErrorKind.timeout,
   Except.error (RotaErrorKind.proxyConnectionFailed "refused"),
   Except.error RotaErrorKind.timeout]

theorem c2_exhausted_retries_status_witness :
    (∀ a ∈ exFailedAttempts, ∃ e, a = Except.error e)
    ∧ (handleHttpStatus exFailedAttempts = 502
        ∧ (∀ phase, forwardTimeoutError phase = RotaErrorKind.timeout)
        ∧ handleHttpStatus exFailedAttempts ≠ 504) :=
  ⟨by intro a ha
      simp only [exFailedAttempts, List.mem_cons, List.not_mem_nil, or_false] at ha
      rcases ha with h | h | h <;> exact ⟨_, h⟩,
    c2_exhausted_retries_status exFailedAttempts
      (by intro a ha
          simp only [exFailedAttempts, List.mem_cons, List.not_mem_nil, or_false] at ha
          rcases ha with h | h | h <;> exact ⟨_, h⟩)⟩

/-! ## Rate limiter (src/proxy/middleware/rate_limit.rs) -/

/-- Model of `RateLimitSettings` (src/models/settings.rs lines 97-104): i32 fields
modelled as `Int`. -/
structure RateLimitSettings where
  enabled : Bool
  interval : Int
  maxRequests : Int
  deriving DecidableEq, Repr

/-- Model of `settings.max_requests.max(1) as u32` (rate_limit.rs line 88). -/
def RateLimitSettings.maxReq (s : RateLimitSettings) : Nat :=
  (max s.maxRequests 1).toNat

/-- Model of `settings.interval.max(1) as u64` (rate_limit.rs line 87). -/
def RateLimitSettings.intervalSecs (s : RateLimitSettings) : Nat :=
  (max s.interval 1).toNat

/-- The replenish period `Duration::from_secs(interval) / max_requests`,
floored to 1 ns when the division truncates to zero
(rate_limit.rs lines 91-94), in nanoseconds. -/
def replenishNanos (s : RateLimitSettings) : Nat :=
  let r := s.intervalSecs * 1000000000 / s.maxReq
  if r = 0 then 1 else r

/-- The active quota (rate_limit.rs `RateLimiterConfig`): burst capacity and
replenish period; `max_idle` only matters to `cleanup`, which no claim
touches. -/
structure RateLimiterConfig where
  enabled : Bool
  capacity : Nat
  periodNanos : Nat
  deriving DecidableEq, Repr

/-- One token bucket: current token count and the instant (nanoseconds) up
to which refills have been credited. -/
structure BucketState where
  level : Nat
  lastRefill : Nat
  deriving DecidableEq, Repr

/-- Model of `RateLimiter` state: the swappable config and the per-client map. -/
structure RateLimiterState where
  config : RateLimiterConfig
  limiters : List (String × BucketState)
  deriving DecidableEq, Repr

/-- Modelled from the spec: the per-bucket admission decision performed by
the external governor crate (a dependency, not code of this repository),
following the spec wording "Token-bucket semantics ... bucket capacity =
max_requests, refill period = interval_s / max_requests (floored to at
least 1 ns)": elapsed whole periods refill one token each, capped at the
capacity and carrying the remainder; a check consumes one token when one is
available and refuses otherwise. -/
def bucketCheck (cfg : RateLimiterConfig) (b : BucketState) (now : Nat) :
    Bool × BucketState :=
  let periods := (now - b.lastRefill) / cfg.periodNanos
  let refilled := min cfg.capacity (b.level + periods)
  let newLast := b.lastRefill + periods * cfg.periodNanos
  if 0 < refilled then (true, ⟨refilled - 1, newLast⟩)
  else (false, ⟨refilled, newLast⟩)

/-- Lookup in the per-client map. -/
def limitersLookup (l : List (String × BucketState)) (ip : String) : Option BucketState :=
  (l.find? (fun e => decide (e.1 = ip))).map Prod.snd

/-- Store a client bucket (insert or overwrite). -/
def limitersSet (l : List (String × BucketState)) (ip : String) (b : BucketState) :
    List (String × BucketState) :=
  if l.any (fun e => decide (e.1 = ip)) then
    l.map (fun e => if e.1 = ip then (ip, b) else e)
  else
    l ++ [(ip, b)]

/-- Model of `RateLimiter::check` (rate_limit.rs lines 113-132): pass when disabled;
otherwise get or lazily create the client bucket (fresh buckets start full,
stamped at the current instant) and attempt to consume one token, answering
`RateLimitExceeded` on refusal. -/
def RateLimiterState.check (st : RateLimiterState) (now : Nat) (clientIp : String) :
    Except RotaErrorKind Unit × RateLimiterState :=
  if st.config.enabled then
    let bucket := (limitersLookup st.limiters clientIp).getD ⟨st.config.capacity, now⟩
    let r := bucketCheck st.config bucket now
    if r.1 then
      (Except.ok (), ⟨st.config, limitersSet st.limiters clientIp r.2⟩)
    else
      (Except.error (RotaErrorKind.rateLimitExceeded clientIp),
        ⟨st.config, limitersSet st.limiters clientIp r.2⟩)
  else
    (Except.ok (), st)

/-- Model of `RateLimiter::apply_settings` (rate_limit.rs lines 84-110): install the
quota computed from the settings and clear every per-client bucket. -/
def RateLimiterState.applySettings (_st : RateLimiterState) (s : RateLimitSettings) :
    RateLimiterState :=
  { config := { enabled := s.enabled, capacity := s.maxReq, periodNanos := replenishNanos s },
    limiters := [] }

/-- The settings of the claimed boundary scenario: enabled, max_requests=2,
interval_s=1. -/
def exSettings : RateLimitSettings := ⟨true, 1, 2⟩

/-- C7 counterexample: under (enabled, max_requests=2, interval_s=1) the
refill period is 0.5 s, so a third check of the same client 0.6 s after two
immediate checks — still within one second — is allowed through, not refused as
the claim asserts. -/
theorem c7_rate_limiter_counterexample :
    (((((RateLimiterState.applySettings ⟨⟨false, 1, 1⟩, []⟩ exSettings).check
            0 "203.0.113.7").2.check 0 "203.0.113.7").2.check
          600000000 "203.0.113.7").1 = Except.ok ())
    ∧ ((RateLimiterState.applySettings ⟨⟨false, 1, 1⟩, []⟩ exSettings).check
          0 "203.0.113.7").1 = Except.ok ()
    ∧ (((RateLimiterState.applySettings ⟨⟨false, 1, 1⟩, []⟩ exSettings).check
          0 "203.0.113.7").2.check 0 "203.0.113.7").1 = Except.ok ()
    ∧ (600000000 : Nat) < 1000000000 := by
  exact ⟨rfl, rfl, rfl, by decide⟩

theorem bucketCheck_within (cfg : RateLimiterConfig) (b : BucketState) (now : Nat)
    (h : now - b.lastRefill < cfg.periodNanos) (hcap : b.level ≤ cfg.capacity) :
    bucketCheck cfg b now =
      if 0 < b.level then (true, ⟨b.level - 1, b.lastRefill⟩)
      else (false, ⟨b.level, b.lastRefill⟩) := by
  unfold bucketCheck
  rw [Nat.div_eq_of_lt h]
  simp [Nat.min_eq_right, hcap]

theorem RateLimiterState.check_unfold (cfg : RateLimiterConfig)
    (l : List (String × BucketState)) (now : Nat) (ip : String) :
    RateLimiterState.check ⟨cfg, l⟩ now ip =
      if cfg.enabled then
        (if (bucketCheck cfg ((limitersLookup l ip).getD ⟨cfg.capacity, now⟩) now).1 then
          (Except.ok (),
            ⟨cfg, limitersSet l ip
              (bucketCheck cfg ((limitersLookup l ip).getD ⟨cfg.capacity, now⟩) now).2⟩)
        else
          (Except.error (RotaErrorKind.rateLimitExceeded ip),
            ⟨cfg, limitersSet l ip
              (bucketCheck cfg ((limitersLookup l ip).getD ⟨cfg.capacity, now⟩) now).2⟩))
      else (Except.ok (), ⟨cfg, l⟩) := rfl

/-- C7 (amended): apply_settings installs bucket capacity max_requests and
refill period interval_s / max_requests floored to at least 1 ns (for
positive settings values), and clears all per-client buckets so every
client starts fresh; under enabled=true, max_requests=2, interval_s=1 the
third check for the same client within one refill period (0.5 s, not one
second: a third check between 0.5 s and 1 s is allowed, as the
counterexample shows) returns RateLimitExceeded. -/
theorem c7_rate_limiter_quota (st : RateLimiterState) (s : RateLimitSettings)
    (hreq : 1 ≤ s.maxRequests) (hint : 1 ≤ s.interval)
    (c : String) (t0 t1 t2 : Nat) (h01 : t0 ≤ t1) (h12 : t1 ≤ t2)
    (hwin : t2 - t0 < replenishNanos exSettings) :
    ((st.applySettings s).config.capacity = s.maxRequests.toNat
      ∧ (st.applySettings s).config.periodNanos
          = max (s.interval.toNat * 1000000000 / s.maxRequests.toNat) 1
      ∧ (st.applySettings s).limiters = [])
    ∧ ((((st.applySettings exSettings).check t0 c).2.check t1 c).2.check t2 c).1
        = Except.error (RotaErrorKind.rateLimitExceeded c) := by
  constructor
  · have hmax : max s.maxRequests 1 = s.maxRequests := max_eq_left hreq
    have hmaxi : max s.interval 1 = s.interval := max_eq_left hint
    refine ⟨?_, ?_, rfl⟩
    · show s.maxReq = s.maxRequests.toNat
      unfold RateLimitSettings.maxReq
      rw [hmax]
    · show replenishNanos s = max (s.interval.toNat * 1000000000 / s.maxRequests.toNat) 1
      unfold replenishNanos RateLimitSettings.intervalSecs RateLimitSettings.maxReq
      rw [hmax, hmaxi]
      by_cases hz : s.interval.toNat * 1000000000 / s.maxRequests.toNat = 0
      · rw [if_pos hz, hz]
        omega
      · rw [if_neg hz, max_eq_left (Nat.one_le_iff_ne_zero.mpr hz)]
  · have hper : replenishNanos exSettings = 500000000 := rfl
    rw [hper] at hwin
    have hb1 : bucketCheck ⟨true, 2, 500000000⟩ ⟨2, t0⟩ t0 = (true, ⟨1, t0⟩) := by
      rw [bucketCheck_within ⟨true, 2, 500000000⟩ ⟨2, t0⟩ t0 (by simp) (by norm_num)]
      simp
    have h1 : RateLimiterState.check ⟨⟨true, 2, 500000000⟩, []⟩ t0 c
        = (Except.ok (), ⟨⟨true, 2, 500000000⟩, [(c, ⟨1, t0⟩)]⟩) := by
      rw [RateLimiterState.check_unfold]
      rw [show ((limitersLookup [] c).getD ⟨2, t0⟩) = (⟨2, t0⟩ : BucketState) from rfl, hb1]
      simp [limitersSet]
    have hb2 : bucketCheck ⟨true, 2, 500000000⟩ ⟨1, t0⟩ t1 = (true, ⟨0, t0⟩) := by
      rw [bucketCheck_within ⟨true, 2, 500000000⟩ ⟨1, t0⟩ t1 (by simp; omega) (by norm_num)]
      simp
    have h2 : RateLimiterState.check ⟨⟨true, 2, 500000000⟩, [(c, ⟨1, t0⟩)]⟩ t1 c
        = (Except.ok (), ⟨⟨true, 2, 500000000⟩, [(c, ⟨0, t0⟩)]⟩) := by
      rw [RateLimiterState.check_unfold]
      rw [show ((limitersLookup [(c, (⟨1, t0⟩ : BucketState))] c).getD ⟨2, t1⟩)
          = (⟨1, t0⟩ : BucketState) by simp [limitersLookup, List.find?_cons], hb2]
      simp [limitersSet, List.any_cons]
    have hb3 : bucketCheck ⟨true, 2, 500000000⟩ ⟨0, t0⟩ t2 = (false, ⟨0, t0⟩) := by
      rw [bucketCheck_within ⟨true, 2, 500000000⟩ ⟨0, t0⟩ t2 (by simp; omega) (by norm_num)]
      simp
    have h3 : RateLimiterState.check ⟨⟨true, 2, 500000000⟩, [(c, ⟨0, t0⟩)]⟩ t2 c
        = (Except.error (RotaErrorKind.rateLimitExceeded c),
            ⟨⟨true, 2, 500000000⟩, [(c, ⟨0, t0⟩)]⟩) := by
      rw [RateLimiterState.check_unfold]
      rw [show ((limitersLookup [(c, (⟨0, t0⟩ : BucketState))] c).getD ⟨2, t2⟩)
          = (⟨0, t0⟩ : BucketState) by simp [limitersLookup, List.find?_cons], hb3]
      simp [limitersSet, List.any_cons]
    calc ((((st.applySettings exSettings).check t0 c).2.check t1 c).2.check t2 c).1
        = (((RateLimiterState.check ⟨⟨true, 2, 500000000⟩, []⟩ t0 c).2.check t1 c).2.check t2 c).1 := rfl
      _ = ((RateLimiterState.check ⟨⟨true, 2, 500000000⟩, [(c, ⟨1, t0⟩)]⟩ t1 c).2.check t2 c).1 := by
            rw [h1]
      _ = (RateLimiterState.check ⟨⟨true, 2, 500000000⟩, [(c, ⟨0, t0⟩)]⟩ t2 c).1 := by
            rw [h2]
      _ = Except.error (RotaErrorKind.rateLimitExceeded c) := by
            rw [h3]

theorem c7_rate_limiter_quota_witness :
    ((1 : Int) ≤ (⟨true, 60, 100⟩ : RateLimitSettings).maxRequests
      ∧ (1 : Int) ≤ (⟨true, 60, 100⟩ : RateLimitSettings).interval
      ∧ (0 : Nat) ≤ 100000000 ∧ (100000000 : Nat) ≤ 400000000
      ∧ (400000000 : Nat) - 0 < replenishNanos exSettings)
    ∧ (((RateLimiterState.applySettings ⟨⟨false, 1, 1⟩, []⟩ ⟨true, 60, 100⟩).config.capacity
          = ((⟨true, 60, 100⟩ : RateLimitSettings).maxRequests).toNat
        ∧ (RateLimiterState.applySettings ⟨⟨false, 1, 1⟩, []⟩ ⟨true, 60, 100⟩).config.periodNanos
          = max (((⟨true, 60, 100⟩ : RateLimitSettings).interval).toNat * 1000000000
              / ((⟨true, 60, 100⟩ : RateLimitSettings).maxRequests).toNat) 1
        ∧ (RateLimiterState.applySettings ⟨⟨false, 1, 1⟩, []⟩ ⟨true, 60, 100⟩).limiters = [])
      ∧ ((((RateLimiterState.applySettings ⟨⟨false, 1, 1⟩, []⟩ exSettings).check
              0 "198.51.100.9").2.check 100000000 "198.51.100.9").2.check
            400000000 "198.51.100.9").1
          = Except.error (RotaErrorKind.rateLimitExceeded "198.51.100.9")) :=
  ⟨⟨by decide, by decide, by decide, by decide, by decide⟩,
    c7_rate_limiter_quota ⟨⟨false, 1, 1⟩, []⟩ ⟨true, 60, 100⟩ (by decide) (by decide)
      "198.51.100.9" 0 100000000 400000000 (by decide) (by decide) (by decide)⟩

/-! ## Proxy authentication (src/proxy/middleware/auth.rs) -/

/-- Index of a character in the base64 alphabet. -/
def base64DecodeChar (c : Char) : Option Nat :=
  base64Alphabet.findIdx? (fun d => decide (d = c))

/-- Strict base64 decoding by four-character groups with canonical padding
(the `base64` crate STANDARD engine `decode`): unpadded tails, stray
characters and non-zero trailing bits are rejected. -/
def base64DecodeGroups : List Char → Option (List Nat)
  | [] => some []
  | [c1, c2, '=', '='] => do
    let v1 ← base64DecodeChar c1
    let v2 ← base64DecodeChar c2
    if v2 % 16 = 0 then pure [v1 * 4 + v2 / 16] else none
  | [c1, c2, c3, '='] => do
    let v1 ← base64DecodeChar c1
    let v2 ← base64DecodeChar c2
    let v3 ← base64DecodeChar c3
    if v3 % 4 = 0 then pure [v1 * 4 + v2 / 16, v2 % 16 * 16 + v3 / 4] else none
  | c1 :: c2 :: c3 :: c4 :: rest => do
    let v1 ← base64DecodeChar c1
    let v2 ← base64DecodeChar c2
    let v3 ← base64DecodeChar c3
    let v4 ← base64DecodeChar c4
    let tl ← base64DecodeGroups rest
    pure ([v1 * 4 + v2 / 16, v2 % 16 * 16 + v3 / 4, v3 % 4 * 64 + v4] ++ tl)
  | _ => none

def base64Decode (s : String) : Option (List Nat) :=
  base64DecodeGroups s.data

/-- Validity of a byte list as UTF-8 (the check `String::from_utf8`
performs): well-formed sequences only, rejecting overlong encodings,
surrogates and values beyond U+10FFFF. -/
def utf8Valid : List Nat → Bool
  | [] => true
  | b :: rest =>
    if b < 128 then utf8Valid rest
    else if 194 ≤ b ∧ b ≤ 223 then
      match rest with
      | c1 :: rs => if 128 ≤ c1 ∧ c1 ≤ 191 then utf8Valid rs else false
      | [] => false
    else if b = 224 then
      match rest with
      | c1 :: c2 :: rs =>
        if (160 ≤ c1 ∧ c1 ≤ 191) ∧ (128 ≤ c2 ∧ c2 ≤ 191) then utf8Valid rs else false
      | _ => false
    else if (225 ≤ b ∧ b ≤ 236) ∨ b = 238 ∨ b = 239 then
      match rest with
      | c1 :: c2 :: rs =>
        if (128 ≤ c1 ∧ c1 ≤ 191) ∧ (128 ≤ c2 ∧ c2 ≤ 191) then utf8Valid rs else false
      | _ => false
    else if b = 237 then
      match rest with
      | c1 :: c2 :: rs =>
        if (128 ≤ c1 ∧ c1 ≤ 159) ∧ (128 ≤ c2 ∧ c2 ≤ 191) then utf8Valid rs else false
      | _ => false
    else if b = 240 then
      match rest with
      | c1 :: c2 :: c3 :: rs =>
        if (144 ≤ c1 ∧ c1 ≤ 191) ∧ (128 ≤ c2 ∧ c2 ≤ 191) ∧ (128 ≤ c3 ∧ c3 ≤ 191) then
          utf8Valid rs
        else false
      | _ => false
    else if 241 ≤ b ∧ b ≤ 243 then
      match rest with
      | c1 :: c2 :: c3 :: rs =>
        if (128 ≤ c1 ∧ c1 ≤ 191) ∧ (128 ≤ c2 ∧ c2 ≤ 191) ∧ (128 ≤ c3 ∧ c3 ≤ 191) then
          utf8Valid rs
        else false
      | _ => false
    else if b = 244 then
      match rest with
      | c1 :: c2 :: c3 :: rs =>
        if (128 ≤ c1 ∧ c1 ≤ 143) ∧ (128 ≤ c2 ∧ c2 ≤ 191) ∧ (128 ≤ c3 ∧ c3 ≤ 191) then
          utf8Valid rs
        else false
      | _ => false
    else false

/-- Split a byte list at the first occurrence of `sep`. -/
def splitOnceByteList (sep : Nat) : List Nat → Option (List Nat × List Nat)
  | [] => none
  | b :: rest =>
    if b = sep then some ([], rest)
    else
      match splitOnceByteList sep rest with
      | some (pre, suf) => some (b :: pre, suf)
      | none => none

/-- Header lookup by (lowercased) name, first match. -/
def headerGet (headers : List (String × String)) (name : String) : Option String :=
  (headers.find? (fun h => decide (lowerAscii h.1 = name))).map Prod.snd

/-- Model of `ProxyAuth` (auth.rs lines 13-21). -/
structure ProxyAuth where
  enabled : Bool
  username : String
  password : String
  deriving DecidableEq, Repr

/-- Model of `ProxyAuth::validate` (auth.rs lines 48-86) over the request headers
(hyper stores incoming header names lowercased; lookup is by lowercased
name).  The source decodes the base64 payload, converts it to a string with
`String::from_utf8`, splits at the first colon and compares both halves;
the embedding performs the identical comparison at the UTF-8 byte level
(splitting valid UTF-8 at the first 0x3A byte is exactly splitting the
decoded string at its first colon, and equality of valid UTF-8 byte strings
is equality of the strings). -/
def ProxyAuth.validate (a : ProxyAuth) (headers : List (String × String)) :
    Except RotaErrorKind Unit :=
  if a.enabled then
    match headerGet headers "proxy-authorization" with
    | none => Except.error RotaErrorKind.authenticationFailed
    | some v =>
      if "Basic ".data.isPrefixOf v.data then
        match base64Decode ⟨v.data.drop 6⟩ with
        | none => Except.error RotaErrorKind.authenticationFailed
        | some bytes =>
          if utf8Valid bytes then
            match splitOnceByteList 58 bytes with
            | none => Except.error RotaErrorKind.authenticationFailed
            | some (userB, passB) =>
              if userB = stringUtf8Bytes a.username ∧ passB = stringUtf8Bytes a.password then
                Except.ok ()
              else Except.error RotaErrorKind.authenticationFailed
          else Except.error RotaErrorKind.authenticationFailed
      else Except.error RotaErrorKind.authenticationFailed
  else Except.ok ()

/-- A status-and-headers view of the hyper responses the server builds. -/
structure SimpleResponse where
  status : Nat
  headers : List (String × String)
  deriving DecidableEq, Repr

/-- Model of `ProxyAuth::challenge_response` (auth.rs lines 89-98): 407 with the
Basic challenge header. -/
def ProxyAuth.challengeResponse : SimpleResponse :=
  ⟨407, [("proxy-authenticate", "Basic realm=\"Proxy\"")]⟩

/-! ## Per-request dispatch order (src/proxy/server.rs lines 138-165) -/

/-- The service closure of `ProxyServer::handle_connection`: the rate-limit
check runs first (server.rs line 140, answering 429 on refusal), then
authentication (line 150, answering the 407 challenge), and only then the
handler; handler errors become 500. -/
def serviceResponse (rl : RateLimiterState) (now : Nat) (clientIp : String)
    (auth : ProxyAuth) (reqHeaders : List (String × String))
    (handlerResult : Except RotaErrorKind SimpleResponse) :
    SimpleResponse × RateLimiterState :=
  let rc := rl.check now clientIp
  match rc.1 with
  | Except.error _ => (⟨429, []⟩, rc.2)
  | Except.ok _ =>
    match auth.validate reqHeaders with
    | Except.error _ => (ProxyAuth.challengeResponse, rc.2)
    | Except.ok _ =>
      match handlerResult with
      | Except.ok resp => (resp, rc.2)
      | Except.error _ => (⟨500, []⟩, rc.2)

/-- Auth used in the concrete scenarios: enabled with credentials u / p. -/
def exAuth : ProxyAuth := ⟨true, "u", "p"⟩

/-- Settings giving one request per second with burst one. -/
def exStrictSettings : RateLimitSettings := ⟨true, 1, 1⟩

/-- A rate-limiter state whose bucket for client 198.51.100.2 is exhausted:
fresh quota from `exStrictSettings`, then one check at t=0. -/
def exExhaustedRl : RateLimiterState :=
  ((RateLimiterState.applySettings ⟨⟨false, 1, 1⟩, []⟩ exStrictSettings).check
    0 "198.51.100.2").2

/-- C5 counterexample: authentication is enabled and the request carries no
credentials, yet because the client is rate limited the response is 429,
not the 407 the claim requires; the rate limit runs first. -/
theorem c5_auth_order_counterexample :
    (serviceResponse exExhaustedRl 1 "198.51.100.2" exAuth []
        (Except.ok ⟨200, []⟩)).1.status = 429
    ∧ exAuth.validate [] = Except.error RotaErrorKind.authenticationFailed
    ∧ (exExhaustedRl.check 1 "198.51.100.2").1
        = Except.error (RotaErrorKind.rateLimitExceeded "198.51.100.2")
    ∧ (429 : Nat) ≠ 407 := by
  exact ⟨rfl, rfl, rfl, by decide⟩

/-- C5 (amended): the per-request pipeline checks the rate limit before
authentication: whenever the rate limiter refuses the client the response
is 429, even when authentication is enabled and the credentials are missing
or invalid; when the rate limiter allows the request and authentication fails the
response is the 407 challenge (status 407 with the Basic realm header); and
a 407 emitted by the pipeline itself implies the rate-limit check passed. -/
theorem c5_rate_limit_before_auth (rl : RateLimiterState) (now : Nat) (ip : String)
    (auth : ProxyAuth) (reqHeaders : List (String × String))
    (handlerResult : Except RotaErrorKind SimpleResponse) :
    (∀ e, (rl.check now ip).1 = Except.error e →
        (serviceResponse rl now ip auth reqHeaders handlerResult).1.status = 429)
    ∧ ((rl.check now ip).1 = Except.ok () →
        ∀ e, auth.validate reqHeaders = Except.error e →
          (serviceResponse rl now ip auth reqHeaders handlerResult).1
            = ProxyAuth.challengeResponse)
    ∧ ProxyAuth.challengeResponse.status = 407
    ∧ ((serviceResponse rl now ip auth reqHeaders handlerResult).1.status = 407 →
        (rl.check now ip).1 ≠ Except.error (RotaErrorKind.rateLimitExceeded ip)) := by
  refine ⟨?_, ?_, rfl, ?_⟩
  · intro e he
    simp only [serviceResponse]
    rw [he]
  · intro hok e hauth
    simp only [serviceResponse]
    rw [hok, hauth]
  · intro h407 herr
    simp only [serviceResponse] at h407
    rw [herr] at h407
    simp at h407

theorem c5_rate_limit_before_auth_witness :
    ((exExhaustedRl.check 1 "198.51.100.2").1
        = Except.error (RotaErrorKind.rateLimitExceeded "198.51.100.2"))
    ∧ (serviceResponse exExhaustedRl 1 "198.51.100.2" exAuth []
        (Except.ok ⟨200, []⟩)).1.status = 429 :=
  ⟨rfl,
    (c5_rate_limit_before_auth exExhaustedRl 1 "198.51.100.2" exAuth []
        (Except.ok ⟨200, []⟩)).1
      (RotaErrorKind.rateLimitExceeded "198.51.100.2") rfl⟩

/-! ## Time-based selection strategy (src/proxy/rotation/time_based.rs)

The source serialises every rotation decision under the `current_index` and
`last_rotation` write locks, so a trace of concurrent `select` calls is
modelled as a sequence of atomic steps, each carrying the `Instant::now()`
value (nanoseconds) its caller observed; the times in a trace need not be
monotone, exactly as lock-acquisition order need not follow `now` order. -/

/-- State of `TimeBasedSelector`: proxies, current index, last rotation
instant (nanoseconds) and the rotation interval in seconds. -/
structure TimeBasedState where
  proxies : List Proxy
  currentIndex : Nat
  lastRotation : Nat
  rotationIntervalSecs : Nat
  deriving Repr

/-- Model of `Duration::from_secs(rotation_interval_secs)` in nanoseconds. -/
def TimeBasedState.intervalNanos (s : TimeBasedState) : Nat :=
  s.rotationIntervalSecs * 1000000000

/-- Model of `TimeBasedSelector::maybe_rotate` (time_based.rs lines 51-74): nothing
happens on an empty pool; otherwise, when at least the interval has elapsed
since the last rotation (`Instant::duration_since` saturates at zero, as
`Nat` subtraction does), re-check under the write locks and advance the
index modulo the pool size, stamping the rotation instant.  In the atomic
step model the double check re-evaluates the same condition. -/
def TimeBasedState.maybeRotate (s : TimeBasedState) (now : Nat) : TimeBasedState :=
  if s.proxies.length = 0 then s
  else
    let interval := s.intervalNanos
    if s.intervalNanos ≤ now - s.lastRotation then
      -- double-check after acquiring the write locks
      if interval ≤ now - s.lastRotation then
        { s with currentIndex := (s.currentIndex + 1) % s.proxies.length,
                 lastRotation := now }
      else s
    else s

/-- Model of `TimeBasedSelector::select` (time_based.rs lines 85-100). -/
def TimeBasedState.select (s : TimeBasedState) (now : Nat) :
    Except RotaErrorKind Proxy × TimeBasedState :=
  if s.proxies.isEmpty then
    (Except.error RotaErrorKind.noProxiesAvailable, s)
  else
    match (s.maybeRotate now).proxies[(s.maybeRotate now).currentIndex]? with
    | some p => (Except.ok p, s.maybeRotate now)
    | none => (Except.error RotaErrorKind.noProxiesAvailable, s.maybeRotate now)

/-- Model of `TimeBasedSelector::refresh` (time_based.rs lines 102-116): replace the
pool and clamp an out-of-bounds index back to 0. -/
def TimeBasedState.refresh (s : TimeBasedState) (ps : List Proxy) : TimeBasedState :=
  ⟨ps, if 0 < ps.length ∧ ps.length ≤ s.currentIndex then 0 else s.currentIndex,
    s.lastRotation, s.rotationIntervalSecs⟩

/-- Whether a `select` step at instant `now` advances the rotation state:
the pool is non-empty and the interval has elapsed. -/
def advances (s : TimeBasedState) (now : Nat) : Bool :=
  !s.proxies.isEmpty && decide (s.intervalNanos ≤ now - s.lastRotation)

/-- Number of advancing steps in a trace of `select` instants. -/
def countAdvances (s : TimeBasedState) : List Nat → Nat
  | [] => 0
  | t :: ts => (if advances s t then 1 else 0) + countAdvances (s.select t).2 ts

theorem TimeBasedState.select_no_advance (s : TimeBasedState) (now : Nat)
    (h : advances s now = false) : (s.select now).2 = s := by
  unfold TimeBasedState.select
  by_cases hemp : s.proxies.isEmpty
  · rw [if_pos hemp]
  · rw [if_neg hemp]
    have hcond : ¬ s.intervalNanos ≤ now - s.lastRotation := by
      intro hle
      have hadvt : advances s now = true := by
        unfold advances
        simp [hemp, hle]
      rw [hadvt] at h
      cases h
    have hrot : s.maybeRotate now = s := by
      unfold TimeBasedState.maybeRotate
      by_cases hz : s.proxies.length = 0
      · rw [if_pos hz]
      · rw [if_neg hz, if_neg hcond]
    rw [hrot]
    cases hcell : s.proxies[s.currentIndex]? <;> simp [hcell]

theorem TimeBasedState.select_advance (s : TimeBasedState) (now : Nat)
    (h : advances s now = true) :
    (s.select now).2 =
      { s with currentIndex := (s.currentIndex + 1) % s.proxies.length,
               lastRotation := now } := by
  unfold advances at h
  simp only [Bool.and_eq_true, Bool.not_eq_true', decide_eq_true_eq] at h
  obtain ⟨hne, hcond⟩ := h
  unfold TimeBasedState.select
  rw [if_neg (by rw [hne]; exact Bool.false_ne_true)]
  have hz : ¬ s.proxies.length = 0 := by
    intro hzero
    have hnil := List.length_eq_zero.mp hzero
    rw [hnil] at hne
    cases hne
  have hrot : s.maybeRotate now =
      { s with currentIndex := (s.currentIndex + 1) % s.proxies.length,
               lastRotation := now } := by
    unfold TimeBasedState.maybeRotate
    rw [if_neg hz, if_pos hcond, if_pos hcond]
  rw [hrot]
  split <;> rfl

theorem TimeBasedState.select_within (s : TimeBasedState) (now : Nat)
    (hne : s.proxies.isEmpty = false) (hidx : s.currentIndex < s.proxies.length)
    (hlt : now - s.lastRotation < s.intervalNanos) :
    s.select now = (Except.ok (s.proxies.getD s.currentIndex default), s) := by
  have hadv : advances s now = false := by
    unfold advances
    simp [hne, Nat.not_le.mpr hlt]
  have hrot : s.maybeRotate now = s := by
    unfold TimeBasedState.maybeRotate
    by_cases hz : s.proxies.length = 0
    · rw [if_pos hz]
    · rw [if_neg hz, if_neg (Nat.not_le.mpr hlt)]
  unfold TimeBasedState.select
  rw [if_neg (by rw [hne]; exact Bool.false_ne_true), hrot,
    List.getElem?_eq_getElem hidx, List.getD_eq_getElem s.proxies default hidx]

theorem countAdvances_zero (s : TimeBasedState) (ts : List Nat)
    (h : ∀ u ∈ ts, u - s.lastRotation < s.intervalNanos) :
    countAdvances s ts = 0 := by
  induction ts with
  | nil => rfl
  | cons u ts ih =>
    have hu := (h u (by simp)).not_le
    have hadv : advances s u = false := by
      unfold advances
      simp [hu]
    unfold countAdvances
    rw [TimeBasedState.select_no_advance s u hadv, hadv]
    simpa using ih (fun v hv => h v (by simp [hv]))

/-- C6: for the time-based strategy with a non-empty pool, every select
within one interval returns the pool element at the current index and
leaves the state untouched (so selects within an interval all return the
same element); between two successive advances at least the interval
elapses (an advance stamps its instant, and a following advance requires
the interval to have elapsed since that stamp); and a trace of concurrent
(write-lock-serialised) select steps whose instants all fall within one
window shorter than the interval advances the index at most once. -/
theorem c6_time_based_interval (s : TimeBasedState) (now : Nat) (ts : List Nat) (t0 : Nat)
    (hne : s.proxies.isEmpty = false) (hidx : s.currentIndex < s.proxies.length)
    (hlt : now - s.lastRotation < s.intervalNanos)
    (hwin : ∀ u ∈ ts, t0 ≤ u ∧ u - t0 < s.intervalNanos) :
    s.select now = (Except.ok (s.proxies.getD s.currentIndex default), s)
    ∧ (∀ t u : Nat, advances s t = true → advances (s.select t).2 u = true →
        (s.intervalNanos ≤ u - t ∧ ((s.select t).2).lastRotation = t))
    ∧ countAdvances s ts ≤ 1 := by
  refine ⟨TimeBasedState.select_within s now hne hidx hlt, ?_, ?_⟩
  · intro t u h1 h2
    rw [TimeBasedState.select_advance s t h1] at h2 ⊢
    unfold advances at h2
    simp only [Bool.and_eq_true, decide_eq_true_eq] at h2
    exact ⟨h2.2, rfl⟩
  · induction ts with
    | nil => exact Nat.zero_le 1
    | cons u ts ih =>
      by_cases hadv : advances s u = true
      · unfold countAdvances
        rw [hadv, if_pos rfl, TimeBasedState.select_advance s u hadv]
        have hzero : countAdvances
            { s with currentIndex := (s.currentIndex + 1) % s.proxies.length,
                     lastRotation := u } ts = 0 := by
          apply countAdvances_zero
          intro v hv
          show v - u < s.intervalNanos
          have h1 := (hwin u (by simp)).1
          have h2 := (hwin v (by simp [hv])).2
          omega
        rw [hzero]
      · have hadv2 : advances s u = false := by
          cases h : advances s u
          · rfl
          · exact absurd h hadv
        unfold countAdvances
        rw [hadv2, TimeBasedState.select_no_advance s u hadv2]
        simpa using ih (fun v hv => hwin v (by simp [hv]))

/-- A concrete time-based state for the witness: two proxies, last rotation
at the instant 1000, interval 60 s. -/
def exTimeBased : TimeBasedState := ⟨[exProxy1, exProxy2], 0, 1000, 60⟩

theorem c6_time_based_interval_witness :
    (exTimeBased.proxies.isEmpty = false
      ∧ exTimeBased.currentIndex < exTimeBased.proxies.length
      ∧ 500000 - exTimeBased.lastRotation < exTimeBased.intervalNanos
      ∧ ∀ u ∈ [2000, 3000], 2000 ≤ u ∧ u - 2000 < exTimeBased.intervalNanos)
    ∧ (exTimeBased.select 500000
          = (Except.ok (exTimeBased.proxies.getD exTimeBased.currentIndex default), exTimeBased)
        ∧ (∀ t u : Nat, advances exTimeBased t = true →
            advances (exTimeBased.select t).2 u = true →
              (exTimeBased.intervalNanos ≤ u - t
                ∧ ((exTimeBased.select t).2).lastRotation = t))
        ∧ countAdvances exTimeBased [2000, 3000] ≤ 1) :=
  ⟨⟨by decide, by decide, by decide, by decide⟩,
    c6_time_based_interval exTimeBased 500000 [2000, 3000] 2000
      (by decide) (by decide) (by decide) (by decide)⟩

end Rota
